import Mathlib

/-! Shallow embedding of `modelscope/trainers/hooks/logger/text_logger_hook.py`
(class `TextLoggerHook`) and proofs about its logging behaviour.

Conventions of the embedding:
* Python floats are modelled as exact rationals (`ℚ`); Python ints as `ℤ`.
* The ordered metric dictionary (`log_dict`, an insertion-ordered mapping)
  is modelled as an association list `List (String × JValue)`.
* Fallible dictionary subscripts (`log_dict[k]`, raising `KeyError`) are
  modelled in `Except PyErr`.
* The external collaborators (`torch.distributed.reduce`, `is_master`,
  file/console output) are modelled by explicit parameters and by an
  effect list describing the writes a call performs.
-/

namespace TextLoggerModel

/-- Modelled from the spec: metric key for the run mode
(`LogKeys.MODE`, imported by the hook from a constants module outside the
single source file). -/
def MODE_KEY : String := "mode"

/-- Modelled from the spec: metric key for the epoch counter (`LogKeys.EPOCH`). -/
def EPOCH_KEY : String := "epoch"

/-- Modelled from the spec: metric key for the iteration counter (`LogKeys.ITER`). -/
def ITER_KEY : String := "iter"

/-- Modelled from the spec: metric key for the learning rate (`LogKeys.LR`). -/
def LR_KEY : String := "lr"

/-- Modelled from the spec: metric key for the per-iteration time (`LogKeys.ITER_TIME`). -/
def ITER_TIME_KEY : String := "iter_time"

/-- Modelled from the spec: metric key for the data-loading time
(`LogKeys.DATA_LOAD_TIME`). -/
def DATA_LOAD_TIME_KEY : String := "data_load_time"

/-- Modelled from the spec: metric key for the estimated remaining time (`LogKeys.ETA`). -/
def ETA_KEY : String := "eta"

/-- Modelled from the spec: metric key for the peak memory figure (`LogKeys.MEMORY`). -/
def MEMORY_KEY : String := "memory"

/-- Modelled from the spec: the training-mode tag (`ModeKeys.TRAIN`). -/
def TRAIN_MODE : String := "train"

/-! ### Decimal rounding and formatting helpers

These model Python's `round(x, n)`, the `:.Nf` and `:.3e` format specifiers and
`str(datetime.timedelta(...))` on exact rationals (round-half-to-even on the
decimal digit, as CPython does). -/

/-- Round a rational to the nearest integer, ties to even (banker's rounding,
as used by Python's `round` and string formatting). -/
def roundHalfEven (q : ℚ) : ℤ :=
  if q - ⌊q⌋ < 1/2 then ⌊q⌋
  else if 1/2 < q - ⌊q⌋ then ⌊q⌋ + 1
  else if ⌊q⌋ % 2 = 0 then ⌊q⌋ else ⌊q⌋ + 1

/-- Python's `round(q, nd)`: round to `nd` decimal places, ties to even. -/
def roundTo (nd : ℕ) (q : ℚ) : ℚ :=
  (roundHalfEven (q * 10 ^ nd) : ℚ) / 10 ^ nd

/-- Python's `int(q)`: truncation toward zero. -/
def intTrunc (q : ℚ) : ℤ :=
  if q < 0 then -⌊-q⌋ else ⌊q⌋

/-- Two-digit zero padding, as in `datetime.timedelta`'s minute/second fields. -/
def pad2 (n : ℕ) : String :=
  if n < 10 then "0" ++ toString n else toString n

/-- Decimal digits of `k`, left-padded with zeros to width `nd`. -/
def padZeros (nd : ℕ) (k : ℕ) : String :=
  let s := toString k
  String.mk (List.replicate (nd - s.length) '0') ++ s

/-- `str(datetime.timedelta(seconds = n))` for an integer number of seconds:
`H:MM:SS`, preceded by a day count (with singular/plural `day`/`days`) when the
normalized day component is nonzero.  Negative durations normalize the
second-of-day into `[0, 86400)` with a negative day count, as CPython does. -/
def timedeltaStr (n : ℤ) : String :=
  let d := n.ediv 86400
  let s := (n.emod 86400).toNat
  let hms := toString (s / 3600) ++ ":" ++ pad2 (s % 3600 / 60) ++ ":" ++ pad2 (s % 60)
  if d = 0 then hms
  else toString d ++ (if d = 1 ∨ d = -1 then " day, " else " days, ") ++ hms

/-- Python's fixed-point format `f"{q:.nd f}"`: `nd` decimal digits,
round-half-to-even, with a leading minus sign taken from the value's sign. -/
def fmtFixed (nd : ℕ) (q : ℚ) : String :=
  let m := roundHalfEven (q * 10 ^ nd)
  let sign := if m < 0 ∨ (m = 0 ∧ q < 0) then "-" else ""
  let a := m.natAbs
  sign ++ toString (a / 10 ^ nd) ++ "." ++ padZeros nd (a % 10 ^ nd)

/-- Number of decimal digits of `n`, computed with an explicit fuel bound
(`fuel ≥ digit count` suffices; callers pass `n` itself, which is enough). -/
def digitsLen : ℕ → ℕ → ℕ
  | 0, _ => 1
  | fuel + 1, n => if n < 10 then 1 else digitsLen fuel (n / 10) + 1

/-- `⌊log₁₀ x⌋` for a positive rational, via decimal digit counts. -/
def floorLog10 (x : ℚ) : ℤ :=
  if 1 ≤ x then
    let f := ⌊x⌋.toNat
    (digitsLen f f : ℤ) - 1
  else
    let c := (⌈x⁻¹⌉ - 1).toNat ;
    -(digitsLen c c : ℤ)

/-- Scientific notation of a positive rational with three fractional digits,
the positive case of Python's `f"{q:.3e}"`. -/
def fmt3ePos (x : ℚ) : String :=
  let e0 := floorLog10 x
  let m0 := roundHalfEven (x * (10 : ℚ) ^ (3 - e0))
  let m := if m0 = 10000 then (1000 : ℤ) else m0
  let e := if m0 = 10000 then e0 + 1 else e0
  let a := m.toNat
  toString (a / 1000) ++ "." ++ padZeros 3 (a % 1000) ++ "e" ++
    (if e < 0 then "-" else "+") ++ pad2 e.natAbs

/-- Python's `f"{q:.3e}"`: scientific notation with three fractional digits
and a sign-and-two-digit exponent. -/
def fmt3e (q : ℚ) : String :=
  if q = 0 then "0.000e+00"
  else if q < 0 then "-" ++ fmt3ePos (-q)
  else fmt3ePos q

/-! ### Metric values and the ordered metric dictionary -/

/-- A Python value as it occurs in the hook's `log_dict`: an int, a float, a
string, a list, or a nested (insertion-ordered) mapping. -/
inductive JValue where
  | int (n : ℤ)
  | float (q : ℚ)
  | str (s : String)
  | list (l : List JValue)
  | dict (d : List (String × JValue))

/-- The insertion-ordered metric dictionary (`log_dict`). -/
abbrev LogDict := List (String × JValue)

/-- Python `str()` of a float outside a format specifier.  CPython prints the
shortest decimal repr of the double; the claims never evaluate this case, and
the model prints the exact rational as `num/den`. -/
def pyFloatRepr (q : ℚ) : String :=
  toString q.num ++ "/" ++ toString q.den

mutual

/-- Python `str()` / f-string interpolation of a value. -/
def pyStr : JValue → String
  | .int n => toString n
  | .float q => pyFloatRepr q
  | .str s => s
  | .list l => "[" ++ String.intercalate ", " (pyStrList l) ++ "]"
  | .dict d => "\x7b" ++ String.intercalate ", " (pyStrEntries d) ++ "\x7d"

/-- `str()` of each element of a list. -/
def pyStrList : List JValue → List String
  | [] => []
  | v :: vs => pyStr v :: pyStrList vs

/-- `repr`-style rendering of each entry of a dict. -/
def pyStrEntries : List (String × JValue) → List String
  | [] => []
  | e :: es => ("\x27" ++ e.1 ++ "\x27: " ++ pyStr e.2) :: pyStrEntries es

end

mutual

/-- `TextLoggerHook._round_float` (default `ndigits = 5`): recurse into lists,
round floats to 5 decimal places, return every other value unchanged. -/
def roundFloat : JValue → JValue
  | .list l => .list (roundFloatList l)
  | .float q => .float (roundTo 5 q)
  | v => v

/-- `_round_float` mapped over the items of a list. -/
def roundFloatList : List JValue → List JValue
  | [] => []
  | v :: vs => roundFloat v :: roundFloatList vs

end

/-- The record built by `TextLoggerHook._dump_log`: a copy of `log_dict` (in
iteration order) with `_round_float` applied to every value. -/
def dumpRecord (d : LogDict) : LogDict :=
  (d : List (String × JValue)).map (fun p => (p.1, roundFloat p.2))

/-- A Python exception as surfaced by the hook: a `KeyError` on a dictionary
subscript, or a `TypeError`/`ValueError` from formatting a non-numeric value
with a numeric format specifier. -/
inductive PyErr where
  | keyError (k : String)
  | typeError
deriving DecidableEq

/-- `log_dict[k]`: raising subscript. -/
def getKey (d : LogDict) (k : String) : Except PyErr JValue :=
  match List.lookup k (d : List (String × JValue)) with
  | some v => .ok v
  | none => .error (.keyError k)

/-- Numeric coercion performed by the `:.3e` / `:.3f` format specifiers. -/
def toFloatQ : JValue → Except PyErr ℚ
  | .float q => .ok q
  | .int n => .ok (n : ℚ)
  | _ => .error .typeError

/-- Python `log_dict[mode_key] == ModeKeys.TRAIN`. -/
def isTrainMode : JValue → Bool
  | .str s => s == TRAIN_MODE
  | _ => false

/-! ### The hook's mutable state and the trainer collaborator -/

/-- The fields of the trainer object that `_log_info` and `before_run` read. -/
structure Trainer where
  iter : ℤ
  max_iters : ℤ
  iters_per_epoch : ℤ
  work_dir : String
  timestamp : String
  meta : Option LogDict

/-- The state a `TextLoggerHook` instance carries across calls: the
configuration set in `__init__` (`by_epoch`, `interval`, `out_dir`) and the
mutable fields (`time_sec_tot`, `start_iter`, `json_log_path`,
`_logged_keys`). -/
structure TextLoggerHook where
  by_epoch : Bool
  interval : ℤ
  time_sec_tot : ℚ
  start_iter : ℤ
  out_dir : Option String
  json_log_path : String
  logged_keys : List String
deriving DecidableEq

/-- `TextLoggerHook.__init__`: `time_sec_tot = 0` and `_logged_keys = []`;
`start_iter` and `json_log_path` are not assigned until `before_run` (modelled
with inert defaults). -/
def TextLoggerHook.init (by_epoch : Bool) (interval : ℤ) (out_dir : Option String) :
    TextLoggerHook :=
  { by_epoch := by_epoch, interval := interval, time_sec_tot := 0, start_iter := 0,
    out_dir := out_dir, json_log_path := "", logged_keys := [] }

/-! ### Rendering pieces of `_log_info` -/

/-- The learning-rate segments built from a multi-group dict:
one `f"{lr_key}_{k}: {val:.3e}"` string per group, in iteration order. -/
def lrSegs : List (String × JValue) → Except PyErr (List String)
  | [] => .ok []
  | (k, v) :: rest =>
    match toFloatQ v with
    | .error e => .error e
    | .ok q =>
      match lrSegs rest with
      | .error e => .error e
      | .ok tl => .ok ((LR_KEY ++ "_" ++ k ++ ": " ++ fmt3e q) :: tl)

/-- The `lr_str` computed at the top of the training branch of `_log_info`:
space-joined per-group segments for a dict value, a single
`f"{lr_key}: {val:.3e}"` segment otherwise. -/
def lrStrOf : JValue → Except PyErr String
  | .dict gs =>
    match lrSegs gs with
    | .error e => .error e
    | .ok segs => .ok (String.intercalate " " segs)
  | v =>
    match toFloatQ v with
    | .error e => .error e
    | .ok q => .ok (LR_KEY ++ ": " ++ fmt3e q)

/-- One trailing item's value: floats through `:.4f`, every other type through
`str()`. -/
def renderVal : JValue → String
  | .float q => fmtFixed 4 q
  | v => pyStr v

/-- The entries of `log_dict` that survive the `name in self._logged_keys`
filter of the generic trailing loop. -/
def trailingPairs (lk : List String) (d : LogDict) : LogDict :=
  (d : List (String × JValue)).filter (fun p => !(lk.contains p.1))

/-- The comma-joined generic trailing segment of the rendered line. -/
def trailingStr (lk : List String) (d : LogDict) : String :=
  String.intercalate ", "
    ((trailingPairs lk d : List (String × JValue)).map (fun p => p.1 ++ ": " ++ renderVal p.2))

/-- The epoch/iter display prefix of the training branch:
`f"{epoch_key} [{E}][{I}/{iters_per_epoch}]\t"` when `by_epoch`, else
`f"{iter_key} [{I}/{max_iters}]\t"`.  Reads `log_dict[epoch_key]` only in the
`by_epoch` case. -/
def headTrain (self : TextLoggerHook) (trainer : Trainer) (d : LogDict) :
    Except PyErr String :=
  if self.by_epoch then
    match getKey d EPOCH_KEY with
    | .error e => .error e
    | .ok ev =>
      match getKey d ITER_KEY with
      | .error e => .error e
      | .ok iv =>
        .ok (EPOCH_KEY ++ " [" ++ pyStr ev ++ "][" ++ pyStr iv ++ "/" ++
          toString trainer.iters_per_epoch ++ "]\t")
  else
    match getKey d ITER_KEY with
    | .error e => .error e
    | .ok iv =>
      .ok (ITER_KEY ++ " [" ++ pyStr iv ++ "/" ++ toString trainer.max_iters ++ "]\t")

/-- The epoch/iter display prefix of the validation/test branch:
`f"{epoch_key}({mode}) [{E}][{I}]\t"` when `by_epoch`, else
`f"{iter_key}({mode}) [{I}]\t"`. -/
def headEval (self : TextLoggerHook) (d : LogDict) : Except PyErr String :=
  match getKey d MODE_KEY with
  | .error e => .error e
  | .ok mv =>
    if self.by_epoch then
      match getKey d EPOCH_KEY with
      | .error e => .error e
      | .ok ev =>
        match getKey d ITER_KEY with
        | .error e => .error e
        | .ok iv =>
          .ok (EPOCH_KEY ++ "(" ++ pyStr mv ++ ") [" ++ pyStr ev ++ "][" ++ pyStr iv ++ "]\t")
    else
      match getKey d ITER_KEY with
      | .error e => .error e
      | .ok iv =>
        .ok (ITER_KEY ++ "(" ++ pyStr mv ++ ") [" ++ pyStr iv ++ "]\t")

/-- The ETA value `eta_sec` computed in the timing branch, after
`time_sec_tot` has been updated to `tot`: `time_sec_avg * (max_iters - iter - 1)`
with `time_sec_avg = tot / (iter - start_iter + 1)`. -/
def etaSec (tot : ℚ) (start_iter : ℤ) (trainer : Trainer) : ℚ :=
  tot / ((trainer.iter - start_iter + 1 : ℤ) : ℚ) *
    ((trainer.max_iters - trainer.iter - 1 : ℤ) : ℚ)

/-- `TextLoggerHook._log_info(log_dict, trainer)` up to the `is_master()` gate:
returns the updated hook state and the rendered line, or the Python exception
the call raises.  Mirrors the source line by line: the mode test, the
learning-rate string, the display prefix, the `_logged_keys` extension, the
optional timing/ETA segment (reading `log_dict[data_load_time_key]`
unconditionally once `iter_time_key` is present), the validation/test branch,
and the generic trailing segment filtered by `_logged_keys`. -/
def logInfoCore (self : TextLoggerHook) (trainer : Trainer) (d : LogDict) :
    Except PyErr (TextLoggerHook × String) :=
  match getKey d MODE_KEY with
  | .error e => .error e
  | .ok mv =>
    if isTrainMode mv then
      match getKey d LR_KEY with
      | .error e => .error e
      | .ok lrv =>
        match lrStrOf lrv with
        | .error e => .error e
        | .ok lr_str =>
          match headTrain self trainer d with
          | .error e => .error e
          | .ok head =>
            let log_str := head ++ lr_str ++ ", "
            let lk := self.logged_keys ++ [LR_KEY, MODE_KEY, ITER_KEY, EPOCH_KEY]
            match List.lookup ITER_TIME_KEY (d : List (String × JValue)) with
            | some itv =>
              match toFloatQ itv with
              | .error e => .error e
              | .ok t =>
                let tot := self.time_sec_tot + t * (self.interval : ℚ)
                let eta_str := timedeltaStr (intTrunc (etaSec tot self.start_iter trainer))
                match getKey d DATA_LOAD_TIME_KEY with
                | .error e => .error e
                | .ok dv =>
                  match toFloatQ dv with
                  | .error e => .error e
                  | .ok dl =>
                    let log_str := log_str ++ ETA_KEY ++ ": " ++ eta_str ++ ", " ++
                      ITER_TIME_KEY ++ ": " ++ fmtFixed 3 t ++ ", " ++
                      DATA_LOAD_TIME_KEY ++ ": " ++ fmtFixed 3 dl ++ ", "
                    let lk := lk ++ [ITER_TIME_KEY, DATA_LOAD_TIME_KEY]
                    .ok ({ self with time_sec_tot := tot, logged_keys := lk },
                      log_str ++ trailingStr lk d)
            | none =>
              .ok ({ self with logged_keys := lk }, log_str ++ trailingStr lk d)
    else
      match headEval self d with
      | .error e => .error e
      | .ok head =>
        let lk := self.logged_keys ++ [ MODE_KEY, ITER_KEY, EPOCH_KEY]
        .ok ({ self with logged_keys := lk }, head ++ trailingStr lk d)

/-! ### Write effects and the master gate -/

/-- A side effect performed on the world outside the hook: a line emitted to
the logging sink, a record appended to the JSON-lines file, or a directory
creation. -/
inductive Effect where
  | sink (line : String)
  | fileAppend (path : String) (record : LogDict)
  | mkdir (dir : String)

/-- `TextLoggerHook._dump_log(log_dict)`: build the rounded copy of the
record, and append it to the JSON file only when `is_master()`. -/
def dumpLogEffects (master : Bool) (path : String) (d : LogDict) : List Effect :=
  let record := dumpRecord d
  if master then [Effect.fileAppend path record] else []

/-- `TextLoggerHook._log_info` followed by `TextLoggerHook._dump_log`, the two
output sub-operations one logging tick performs on the assembled `log_dict`
(the tail of `TextLoggerHook.log`).  `master` is the value of the external
`is_master()` predicate, identical in both calls. -/
def logTick (master : Bool) (self : TextLoggerHook) (trainer : Trainer) (d : LogDict) :
    Except PyErr (TextLoggerHook × List Effect) :=
  match logInfoCore self trainer d with
  | .error e => .error e
  | .ok (self', line) =>
    .ok (self', (if master then [Effect.sink line] else []) ++
      dumpLogEffects master self'.json_log_path d)

/-- `TextLoggerHook.before_run(trainer)`: resolve the output directory
(configured value, else `trainer.work_dir`), create it when absent and
`is_master()`, announce the log location on the sink (unconditionally),
record `start_iter`, fix the JSON path
`osp.join(out_dir, f"{trainer.timestamp}.log.json")`, and when the trainer
carries non-`None` `meta`, dump it as the first JSON record.
`dirExists` models `osp.exists`. -/
def before_run (master : Bool) (dirExists : String → Bool) (self : TextLoggerHook)
    (trainer : Trainer) : TextLoggerHook × List Effect :=
  let od := self.out_dir.getD trainer.work_dir
  let effMkdir := if !dirExists od && master then [Effect.mkdir od] else []
  let effInfo := [Effect.sink ("Text logs will be saved to " ++ od)]
  let path := od ++ "/" ++ trainer.timestamp ++ ".log.json"
  let effMeta :=
    match trainer.meta with
    | some m => dumpLogEffects master path m
    | none => []
  ({ self with out_dir := some od, start_iter := trainer.iter, json_log_path := path },
    effMkdir ++ effInfo ++ effMeta)

/-! ### The peak-memory query -/

/-- The maximum of a per-rank family of readings, as computed by a MAX
reduction over all participating processes. -/
def clusterMax (n : ℕ) (vals : Fin n → ℕ) : ℕ :=
  (List.finRange n).foldr (fun i acc => max (vals i) acc) 0

/-- Model of `torch.distributed.reduce(tensor, dst = 0, op = ReduceOp.MAX)`:
per the PyTorch contract only the process with rank `dst` receives the reduced
result; every other rank's buffer keeps its local contents. -/
def distReduceMax (n : ℕ) (vals : Fin n → ℕ) : Fin n → ℕ :=
  fun i => if i.val = 0 then clusterMax n vals else vals i

/-- The bytes-to-`torch.int`-megabytes conversion of `_get_max_memory`:
`mem / (1024 * 1024)` truncated by the integer tensor dtype. -/
def memMb (bytes : ℕ) : ℕ := bytes / (1024 * 1024)

/-- `TextLoggerHook._get_max_memory(trainer)` run on each of `n` participating
processes: rank `i`'s local `torch.cuda.max_memory_allocated()` reading is
`bytes i`; the value the call returns on rank `i` is the local truncated
megabyte figure, passed through the MAX reduction when `world_size > 1`. -/
def getMaxMemory (n : ℕ) (bytes : Fin n → ℕ) : Fin n → ℕ :=
  let mb := fun i => memMb (bytes i)
  if 1 < n then distReduceMax n mb else mb

/-! ### Shared lemmas -/

/-- An entry surviving the `_logged_keys` filter has a name outside the
filtering list. -/
theorem trailingPairs_fst_not_mem (lk : List String) (d : LogDict) :
    ∀ p ∈ trailingPairs lk d, p.1 ∉ lk := by
  intro p hp
  unfold trailingPairs at hp
  have h := List.mem_filter.mp hp
  simpa using h.2

/-- Inversion of a successful `_log_info` call: the call ran the training
branch with the timing segment, the training branch without it, or the
validation/test branch, and in each case the updated state and the rendered
line have the corresponding shapes. -/
theorem logInfoCore_ok_inv (self : TextLoggerHook) (tr : Trainer) (d : LogDict)
    (s' : TextLoggerHook) (line : String)
    (h : logInfoCore self tr d = .ok (s', line)) :
    (∃ mv lrv lr_str head itv t dlv dl,
      getKey d MODE_KEY = .ok mv ∧ isTrainMode mv = true ∧
      getKey d LR_KEY = .ok lrv ∧ lrStrOf lrv = .ok lr_str ∧
      headTrain self tr d = .ok head ∧
      List.lookup ITER_TIME_KEY d = some itv ∧ toFloatQ itv = .ok t ∧
      getKey d DATA_LOAD_TIME_KEY = .ok dlv ∧ toFloatQ dlv = .ok dl ∧
      s' = { self with
              time_sec_tot := self.time_sec_tot + t * (self.interval : ℚ),
              logged_keys := self.logged_keys ++ [LR_KEY, MODE_KEY, ITER_KEY, EPOCH_KEY] ++
                [ITER_TIME_KEY, DATA_LOAD_TIME_KEY] } ∧
      line = head ++ lr_str ++ ", " ++ ETA_KEY ++ ": " ++
          timedeltaStr (intTrunc (etaSec (self.time_sec_tot + t * (self.interval : ℚ))
            self.start_iter tr)) ++ ", " ++
          ITER_TIME_KEY ++ ": " ++ fmtFixed 3 t ++ ", " ++
          DATA_LOAD_TIME_KEY ++ ": " ++ fmtFixed 3 dl ++ ", " ++
          trailingStr (self.logged_keys ++ [LR_KEY, MODE_KEY, ITER_KEY, EPOCH_KEY] ++
            [ITER_TIME_KEY, DATA_LOAD_TIME_KEY]) d) ∨
    (∃ mv lrv lr_str head,
      getKey d MODE_KEY = .ok mv ∧ isTrainMode mv = true ∧
      getKey d LR_KEY = .ok lrv ∧ lrStrOf lrv = .ok lr_str ∧
      headTrain self tr d = .ok head ∧
      List.lookup ITER_TIME_KEY d = none ∧
      s' = { self with
              logged_keys := self.logged_keys ++ [LR_KEY, MODE_KEY, ITER_KEY, EPOCH_KEY] } ∧
      line = head ++ lr_str ++ ", " ++
        trailingStr (self.logged_keys ++ [LR_KEY, MODE_KEY, ITER_KEY, EPOCH_KEY]) d) ∨
    (∃ mv head,
      getKey d MODE_KEY = .ok mv ∧ isTrainMode mv = false ∧
      headEval self d = .ok head ∧
      s' = { self with
              logged_keys := self.logged_keys ++ [ MODE_KEY, ITER_KEY, EPOCH_KEY] } ∧
      line = head ++
        trailingStr (self.logged_keys ++ [ MODE_KEY, ITER_KEY, EPOCH_KEY]) d) := by
  simp only [logInfoCore] at h
  split at h <;> rename_i hmode
  · exact absurd h (by simp)
  · rename_i mv
    split at h
    · rename_i hmv
      split at h <;> rename_i hlr
      · exact absurd h (by simp)
      · rename_i lrv
        split at h <;> rename_i hlrs
        · exact absurd h (by simp)
        · rename_i lr_str
          split at h <;> rename_i hhead
          · exact absurd h (by simp)
          · rename_i head
            split at h <;> rename_i hit
            · rename_i itv
              split at h <;> rename_i htq
              · exact absurd h (by simp)
              · rename_i t
                split at h <;> rename_i hdl
                · exact absurd h (by simp)
                · rename_i dlv
                  split at h <;> rename_i hdq
                  · exact absurd h (by simp)
                  · rename_i dl
                    simp only [Except.ok.injEq, Prod.mk.injEq] at h
                    obtain ⟨h1, h2⟩ := h
                    exact Or.inl ⟨mv, lrv, lr_str, head, itv, t, dlv, dl,
                      hmode, hmv, hlr, hlrs, hhead, hit, htq, hdl, hdq,
                      h1.symm, h2.symm⟩
            · simp only [Except.ok.injEq, Prod.mk.injEq] at h
              obtain ⟨h1, h2⟩ := h
              exact Or.inr (Or.inl ⟨mv, lrv, lr_str, head,
                hmode, hmv, hlr, hlrs, hhead, hit, h1.symm, h2.symm⟩)
    · rename_i hmv
      split at h <;> rename_i hhead
      · exact absurd h (by simp)
      · rename_i head
        simp only [Except.ok.injEq, Prod.mk.injEq] at h
        obtain ⟨h1, h2⟩ := h
        exact Or.inr (Or.inr ⟨mv, head, hmode, Bool.of_not_eq_true hmv,
          hhead, h1.symm, h2.symm⟩)

/-- Concrete two-process family of local peak-memory readings (in bytes):
rank 0 reads 7 MiB, rank 1 reads 3 MiB. -/
def memReadingsC1 : Fin 2 → ℕ :=
  fun j => if j.val = 0 then 7 * 1024 * 1024 else 3 * 1024 * 1024

/-- C1, counterexample: on a 2-process run where rank 0 reads 7 MiB and rank 1
reads 3 MiB, it is not the case that every process's `_get_max_memory` value
equals the cluster-wide maximum (rank 1 keeps its local 3 MB figure, because
`dist.reduce(..., dst = 0)` delivers the reduced value only to rank 0). -/
theorem getMaxMemory_not_max_on_every_rank :
    ¬ ∀ i : Fin 2, getMaxMemory 2 memReadingsC1 i =
        clusterMax 2 (fun j => memMb (memReadingsC1 j)) := by
  decide

/-- C1, amended: on a run with `world_size > 1`, the value `_get_max_memory`
places in the snapshot equals the maximum over all processes' local
max-memory-allocated readings (in truncated megabytes) on the root process
(rank 0, the reduction destination and the only process that writes logs),
while every other process's snapshot keeps that process's local reading. -/
theorem getMaxMemory_reduce_to_root (n : ℕ) (hn : 1 < n) (bytes : Fin n → ℕ) (i : Fin n) :
    (i.val = 0 → getMaxMemory n bytes i = clusterMax n (fun j => memMb (bytes j))) ∧
    (i.val ≠ 0 → getMaxMemory n bytes i = memMb (bytes i)) := by
  constructor <;> intro h <;> simp [getMaxMemory, distReduceMax, hn, h]

/-- C1, witness: the amended statement applied to the concrete 2-process
family of readings, at rank 1. -/
theorem getMaxMemory_reduce_to_root_witness :
    (1 < 2) ∧
    (((⟨1, by decide⟩ : Fin 2).val = 0 →
        getMaxMemory 2 memReadingsC1 ⟨1, by decide⟩ =
          clusterMax 2 (fun j => memMb (memReadingsC1 j))) ∧
      ((⟨1, by decide⟩ : Fin 2).val ≠ 0 →
        getMaxMemory 2 memReadingsC1 ⟨1, by decide⟩ = memMb (memReadingsC1 ⟨1, by decide⟩))) :=
  ⟨by decide, getMaxMemory_reduce_to_root 2 (by decide) memReadingsC1 ⟨1, by decide⟩⟩

/-! ### C2: the `_logged_keys` state across ticks -/

/-- A fresh hook, `by_epoch = True`, `interval = 10`, no configured `out_dir`. -/
def hookC2 : TextLoggerHook := TextLoggerHook.init true 10 none

/-- A trainer at iteration 5 of 100 with 50 iterations per epoch. -/
def trainerC2 : Trainer := ⟨5, 100, 50, "work", "ts", none⟩

/-- Tick-1 snapshot: a training-mode `log_dict`. -/
def dictTrainC2 : LogDict :=
  [(MODE_KEY, .str "train"), (EPOCH_KEY, .int 1), (ITER_KEY, .int 1), (LR_KEY, .int 0)]

/-- Tick-2 snapshot: a validation-mode `log_dict` that carries an `lr` entry. -/
def dictValC2 : LogDict :=
  [(MODE_KEY, .str "val"), (EPOCH_KEY, .int 1), (ITER_KEY, .int 2), (LR_KEY, .int 0)]

/-- The hook state after tick 1. -/
def hook1C2 : TextLoggerHook :=
  { by_epoch := true, interval := 10, time_sec_tot := 0, start_iter := 0,
    out_dir := none, json_log_path := "",
    logged_keys := ["lr", "mode", "iter", "epoch"] }

/-- The hook state after tick 2. -/
def hook2C2 : TextLoggerHook :=
  { hook1C2 with logged_keys := ["lr", "mode", "iter", "epoch", "mode", "iter", "epoch"] }

/-- C2, counterexample: `_logged_keys` is NOT reset per call.  After a
training tick consumes `lr`, the set is non-empty at the start of the next
tick, and on that later validation tick — whose own branch consumes only
`mode`/`iter`/`epoch` — the `lr` entry of the snapshot is suppressed from the
generic trailing segment (the rendered line `"epoch(val) [1][2]\t"` carries no
`lr` item although `lr` is a key of the snapshot). -/
theorem loggedKeys_not_reset_per_call :
    logInfoCore hookC2 trainerC2 dictTrainC2 =
      .ok (hook1C2, "epoch [1][1/50]\tlr: 0.000e+00, ") ∧
    hook1C2.logged_keys ≠ [] ∧
    logInfoCore hook1C2 trainerC2 dictValC2 = .ok (hook2C2, "epoch(val) [1][2]\t") ∧
    LR_KEY ∈ dictValC2.map Prod.fst ∧
    LR_KEY ∉ (trailingPairs hook2C2.logged_keys dictValC2).map Prod.fst := by
  exact ⟨by with_unfolding_all rfl, by decide, by rfl, by decide, by decide⟩

/-- C2, amended: `_logged_keys` is created empty once in `__init__` and never
cleared afterwards.  Each successful `_log_info` call only appends the keys it
consumes, the rendered line's generic trailing segment is filtered by the
accumulated list, and in particular every key marked in an earlier tick is
still suppressed from the current tick's trailing segment. -/
theorem loggedKeys_accumulate (self : TextLoggerHook) (tr : Trainer) (d : LogDict)
    (s' : TextLoggerHook) (line : String)
    (h : logInfoCore self tr d = .ok (s', line)) :
    (∀ b i o, (TextLoggerHook.init b i o).logged_keys = []) ∧
    (∃ ks, s'.logged_keys = self.logged_keys ++ ks) ∧
    (∃ head, line = head ++ trailingStr s'.logged_keys d) ∧
    (∀ k ∈ self.logged_keys, ∀ p ∈ trailingPairs s'.logged_keys d, p.1 ≠ k) := by
  have hsuppress : ∀ ks, s'.logged_keys = self.logged_keys ++ ks →
      ∀ k ∈ self.logged_keys, ∀ p ∈ trailingPairs s'.logged_keys d, p.1 ≠ k := by
    intro ks hks k hk p hp hpk
    have hnot := trailingPairs_fst_not_mem s'.logged_keys d p hp
    exact hnot (hks ▸ List.mem_append_left ks (hpk ▸ hk))
  rcases logInfoCore_ok_inv self tr d s' line h with
    ⟨mv, lrv, lr_str, head, itv, t, dlv, dl, _, _, _, _, _, _, _, _, _, hs, hl⟩ |
    ⟨mv, lrv, lr_str, head, _, _, _, _, _, _, hs, hl⟩ |
    ⟨mv, head, _, _, _, hs, hl⟩
  · subst hs; subst hl
    exact ⟨fun _ _ _ => rfl, ⟨_, List.append_assoc _ _ _⟩, ⟨_, rfl⟩,
      hsuppress _ (List.append_assoc _ _ _)⟩
  · subst hs; subst hl
    exact ⟨fun _ _ _ => rfl, ⟨_, rfl⟩, ⟨_, rfl⟩, hsuppress _ rfl⟩
  · subst hs; subst hl
    exact ⟨fun _ _ _ => rfl, ⟨_, rfl⟩, ⟨_, rfl⟩, hsuppress _ rfl⟩

/-- C2, witness: the amended statement applied to the concrete second tick
(the validation snapshot after the training tick). -/
theorem loggedKeys_accumulate_witness :
    logInfoCore hook1C2 trainerC2 dictValC2 = .ok (hook2C2, "epoch(val) [1][2]\t") ∧
    ((∀ b i o, (TextLoggerHook.init b i o).logged_keys = []) ∧
      (∃ ks, hook2C2.logged_keys = hook1C2.logged_keys ++ ks) ∧
      (∃ head, "epoch(val) [1][2]\t" = head ++ trailingStr hook2C2.logged_keys dictValC2) ∧
      (∀ k ∈ hook1C2.logged_keys, ∀ p ∈ trailingPairs hook2C2.logged_keys dictValC2,
        p.1 ≠ k)) :=
  ⟨by rfl, loggedKeys_accumulate hook1C2 trainerC2 dictValC2 hook2C2
    "epoch(val) [1][2]\t" (by rfl)⟩

/-! ### C10: the unconditional `data_load_time` read in the timing branch -/

/-- Training snapshot carrying a data-load time but no iteration time. -/
def dictOnlyDataLoadC10 : LogDict :=
  [(MODE_KEY, .str "train"), (EPOCH_KEY, .int 1), (ITER_KEY, .int 1), (LR_KEY, .int 0),
    (DATA_LOAD_TIME_KEY, .int 2)]

/-- C10, counterexample to the claim's "succeeds only when the two timing keys
are present together or both absent" clause: rendering also succeeds on a
training snapshot that carries `data_load_time` WITHOUT `iter_time`; the lone
timing value is simply rendered in the generic trailing segment. -/
theorem logInfo_only_data_load_time_ok :
    logInfoCore hookC2 trainerC2 dictOnlyDataLoadC10 =
      .ok ({ hookC2 with logged_keys := ["lr", "mode", "iter", "epoch"] },
        "epoch [1][1/50]\tlr: 0.000e+00, data_load_time: 2") := by
  with_unfolding_all rfl

/-- C10, amended: in a training-mode snapshot, `log_dict[data_load_time_key]`
is read unconditionally once `iter_time_key` is present, so rendering raises
`KeyError(data_load_time)` on every snapshot having a (numeric) `iter_time`
but no `data_load_time`; when `iter_time` is absent rendering succeeds even if
`data_load_time` is present alone. -/
theorem logInfo_missing_data_load_time (self : TextLoggerHook) (tr : Trainer) (d : LogDict)
    (mv : JValue)
    (hm : List.lookup MODE_KEY d = some mv) (hmv : isTrainMode mv = true)
    (lrv : JValue) (lr_str : String)
    (hlr : List.lookup LR_KEY d = some lrv) (hlrs : lrStrOf lrv = .ok lr_str)
    (head : String) (hhead : headTrain self tr d = .ok head) :
    (∀ itv t, List.lookup ITER_TIME_KEY d = some itv → toFloatQ itv = .ok t →
      List.lookup DATA_LOAD_TIME_KEY d = none →
      logInfoCore self tr d = .error (.keyError DATA_LOAD_TIME_KEY)) ∧
    (List.lookup ITER_TIME_KEY d = none →
      ∃ s' line, logInfoCore self tr d = .ok (s', line)) := by
  constructor
  · intro itv t hit htv hdl
    simp [logInfoCore, getKey, hm, hmv, hlr, hlrs, hhead, hit, htv, hdl]
  · intro hit
    refine ⟨{ self with logged_keys := self.logged_keys ++ [LR_KEY, MODE_KEY, ITER_KEY, EPOCH_KEY] },
      head ++ lr_str ++ ", " ++
        trailingStr (self.logged_keys ++ [LR_KEY, MODE_KEY, ITER_KEY, EPOCH_KEY]) d, ?_⟩
    simp [logInfoCore, getKey, hm, hmv, hlr, hlrs, hhead, hit]

/-- C10, witness: the amended statement applied to a concrete training
snapshot (timing behaviour then follows for each shape of the timing keys). -/
theorem logInfo_missing_data_load_time_witness :
    (List.lookup MODE_KEY dictOnlyDataLoadC10 = some (JValue.str "train") ∧
      isTrainMode (JValue.str "train") = true ∧
      List.lookup LR_KEY dictOnlyDataLoadC10 = some (JValue.int 0) ∧
      lrStrOf (JValue.int 0) = .ok "lr: 0.000e+00" ∧
      headTrain hookC2 trainerC2 dictOnlyDataLoadC10 = .ok "epoch [1][1/50]\t") ∧
    ((∀ itv t, List.lookup ITER_TIME_KEY dictOnlyDataLoadC10 = some itv →
        toFloatQ itv = .ok t →
        List.lookup DATA_LOAD_TIME_KEY dictOnlyDataLoadC10 = none →
        logInfoCore hookC2 trainerC2 dictOnlyDataLoadC10 =
          .error (.keyError DATA_LOAD_TIME_KEY)) ∧
      (List.lookup ITER_TIME_KEY dictOnlyDataLoadC10 = none →
        ∃ s' line, logInfoCore hookC2 trainerC2 dictOnlyDataLoadC10 = .ok (s', line))) :=
  ⟨⟨by rfl, by rfl, by rfl, by with_unfolding_all rfl, by rfl⟩,
    logInfo_missing_data_load_time hookC2 trainerC2 dictOnlyDataLoadC10
      (JValue.str "train") (by rfl) (by rfl) (JValue.int 0) "lr: 0.000e+00"
      (by rfl) (by with_unfolding_all rfl) "epoch [1][1/50]\t" (by rfl)⟩

/-! ### C4 and C9: the rounding performed by `_dump_log` -/

/-- The nearest-integer rounding moves a value by at most one half. -/
theorem abs_roundHalfEven_sub (q : ℚ) : |(roundHalfEven q : ℚ) - q| ≤ 1/2 := by
  have h0 : (⌊q⌋ : ℚ) ≤ q := Int.floor_le q
  have h1 : q < ⌊q⌋ + 1 := Int.lt_floor_add_one q
  unfold roundHalfEven
  split_ifs with hr hs hp <;> rw [abs_le] <;> push_cast <;> constructor <;> linarith

/-- Python's `round(q, nd)` moves a value by at most half of the last kept
decimal place. -/
theorem abs_roundTo_sub (nd : ℕ) (q : ℚ) : |roundTo nd q - q| ≤ 1 / 2 / 10 ^ nd := by
  have hp : (0:ℚ) < 10 ^ nd := by positivity
  have key : roundTo nd q - q =
      ((roundHalfEven (q * 10 ^ nd) : ℚ) - q * 10 ^ nd) / 10 ^ nd := by
    rw [roundTo, div_sub' _ _ _ (ne_of_gt hp)]
    ring_nf
  rw [key, abs_div, abs_of_pos hp, div_le_div_iff_of_pos_right hp]
  exact abs_roundHalfEven_sub (q * 10 ^ nd)

/-- `round(q, 5)` moves a value by at most `1/200000`. -/
theorem abs_roundTo5_sub (q : ℚ) : |roundTo 5 q - q| ≤ 1 / 200000 := by
  have h := abs_roundTo_sub 5 q
  norm_num at h
  exact h

/-- `Approx a b`: the written value `b` recovers the original value `a` up to
5-decimal rounding — every non-float part (ints, strings, nested mappings,
list structure) is exactly the original, and every float is within
`1/200000` of the original float.  Parsing the serialized record is modelled
as the identity on `JValue`. -/
inductive Approx : JValue → JValue → Prop where
  | int (n : ℤ) : Approx (.int n) (.int n)
  | str (s : String) : Approx (.str s) (.str s)
  | dict (d : List (String × JValue)) : Approx (.dict d) (.dict d)
  | float (a b : ℚ) : |b - a| ≤ 1 / 200000 → Approx (.float a) (.float b)
  | list (l l' : List JValue) : List.Forall₂ Approx l l' → Approx (.list l) (.list l')

mutual

/-- `_round_float` only moves a value within `Approx`. -/
theorem roundFloat_approx : (v : JValue) → Approx v (roundFloat v)
  | .int n => .int n
  | .str s => .str s
  | .dict d => .dict d
  | .float q => .float q (roundTo 5 q) (abs_roundTo5_sub q)
  | .list l => .list l (roundFloatList l) (roundFloatList_approx l)

/-- `_round_float` on list items only moves each item within `Approx`. -/
theorem roundFloatList_approx : (l : List JValue) → List.Forall₂ Approx l (roundFloatList l)
  | [] => List.Forall₂.nil
  | v :: vs => List.Forall₂.cons (roundFloat_approx v) (roundFloatList_approx vs)

end

/-- The list branch of `_round_float` is a plain map over the items. -/
theorem roundFloatList_eq_map (l : List JValue) : roundFloatList l = l.map roundFloat := by
  induction l with
  | nil => rfl
  | cons v vs ih => simp [roundFloatList, ih]

/-- `_dump_log`'s record has the same keys in the same order as the
snapshot. -/
theorem dumpRecord_keys (d : LogDict) : (dumpRecord d).map Prod.fst = d.map Prod.fst := by
  simp [dumpRecord, List.map_map, Function.comp]

/-- `_dump_log`'s record looks a key up to the rounded original value. -/
theorem lookup_dumpRecord (r : LogDict) (k : String) :
    List.lookup k (dumpRecord r) = (List.lookup k r).map roundFloat := by
  induction r with
  | nil => rfl
  | cons p rest ih =>
    by_cases hk : k == p.1
    · simp [dumpRecord, List.lookup, hk]
    · simp only [dumpRecord, List.map, List.lookup] at ih ⊢
      rw [Bool.not_eq_true] at hk
      simp [hk, ih]

/-- C4: the record written by the JSON-append operation preserves key
insertion order; every float at top level is `round(·, 5)`-rounded, the
recursion maps over (possibly nested) lists, and ints, strings and nested
mappings are returned unchanged; entrywise, the written record recovers every
non-float value exactly and every float within `1/200000` (half of the fifth
decimal place) of the original. -/
theorem dumpRecord_rounding_roundtrip (d : LogDict) :
    (dumpRecord d).map Prod.fst = d.map Prod.fst ∧
    List.Forall₂ (fun a b => a.1 = b.1 ∧ Approx a.2 b.2) d (dumpRecord d) ∧
    (∀ q, roundFloat (.float q) = .float (roundTo 5 q)) ∧
    (∀ l, roundFloat (.list l) = .list (l.map roundFloat)) ∧
    (∀ n, roundFloat (.int n) = .int n) ∧
    (∀ s, roundFloat (.str s) = .str s) ∧
    (∀ gs, roundFloat (.dict gs) = .dict gs) ∧
    (∀ q, |roundTo 5 q - q| ≤ 1 / 200000) := by
  refine ⟨dumpRecord_keys d, ?_, fun q => rfl, fun l => by simp [roundFloat, roundFloatList_eq_map],
    fun n => rfl, fun s => rfl, fun gs => rfl, abs_roundTo5_sub⟩
  induction d with
  | nil => exact .nil
  | cons p rest ih => exact .cons ⟨rfl, roundFloat_approx p.2⟩ ih

/-- C9: the recursive rounding of the JSON-append operation descends into
lists but returns mapping (dict) values unchanged — a nested
learning-rate-style mapping reaches the written record with its floats
unrounded, while top-level floats and floats inside (possibly nested) lists
are rounded to 5 decimals. -/
theorem dumpRecord_dict_values_unrounded (r : LogDict) (k : String)
    (gs : List (String × JValue)) (h : List.lookup k r = some (.dict gs)) :
    List.lookup k (dumpRecord r) = some (.dict gs) ∧
    (∀ gs2, roundFloat (.dict gs2) = .dict gs2) ∧
    (∀ l, roundFloat (.list l) = .list (l.map roundFloat)) ∧
    (∀ q, roundFloat (.float q) = .float (roundTo 5 q)) := by
  refine ⟨?_, fun gs2 => rfl, fun l => by simp [roundFloat, roundFloatList_eq_map], fun q => rfl⟩
  rw [lookup_dumpRecord, h]
  rfl

/-- A record whose learning-rate entry is a per-group mapping holding a float
that 5-decimal rounding would change. -/
def recordC9 : LogDict :=
  [(LR_KEY, .dict [("group0", .float (mkRat 123456789 1000000000))]), (EPOCH_KEY, .int 1)]

/-- C9, witness: the statement applied to the concrete record. -/
theorem dumpRecord_dict_values_unrounded_witness :
    List.lookup LR_KEY recordC9 =
      some (.dict [("group0", .float (mkRat 123456789 1000000000))]) ∧
    (List.lookup LR_KEY (dumpRecord recordC9) =
        some (.dict [("group0", .float (mkRat 123456789 1000000000))]) ∧
      (∀ gs2, roundFloat (.dict gs2) = .dict gs2) ∧
      (∀ l, roundFloat (.list l) = .list (l.map roundFloat)) ∧
      (∀ q, roundFloat (.float q) = .float (roundTo 5 q))) :=
  ⟨by rfl, dumpRecord_dict_values_unrounded recordC9 LR_KEY
    [("group0", .float (mkRat 123456789 1000000000))] (by rfl)⟩

/-! ### C5: the single-writer gate on the two outputs -/

/-- C5: on every tick, the sink emission and the JSON-file append happen only
when `is_master()`; a non-master call performs the same state update and the
same rendering/rounding computation but produces no effect at all, and a
master call produces exactly the rendered line on the sink followed by the
rounded record appended to the JSON log path. -/
theorem logTick_single_writer (self : TextLoggerHook) (tr : Trainer) (d : LogDict) :
    logTick false self tr d =
      (logTick true self tr d).map (fun p => (p.1, ([] : List Effect))) ∧
    (∀ s' effs, logTick true self tr d = .ok (s', effs) →
      ∃ line, logInfoCore self tr d = .ok (s', line) ∧
        effs = [Effect.sink line, Effect.fileAppend s'.json_log_path (dumpRecord d)]) := by
  constructor
  · unfold logTick
    cases h : logInfoCore self tr d with
    | error e => rfl
    | ok p => cases p; rfl
  · intro s' effs h
    unfold logTick at h
    cases hc : logInfoCore self tr d with
    | error e => rw [hc] at h; exact absurd h (by simp)
    | ok p =>
      obtain ⟨s1, line⟩ := p
      rw [hc] at h
      simp only [Except.ok.injEq, Prod.mk.injEq] at h
      obtain ⟨hs, he⟩ := h
      subst hs
      subst he
      exact ⟨line, rfl, by simp [dumpLogEffects]⟩

/-- C5, witness: the statement applied on the concrete validation tick. -/
theorem logTick_single_writer_witness :
    logTick true hook1C2 trainerC2 dictValC2 =
      .ok (hook2C2, [Effect.sink "epoch(val) [1][2]\t",
        Effect.fileAppend "" (dumpRecord dictValC2)]) ∧
    (∃ line, logInfoCore hook1C2 trainerC2 dictValC2 = .ok (hook2C2, line) ∧
      [Effect.sink "epoch(val) [1][2]\t", Effect.fileAppend "" (dumpRecord dictValC2)] =
        [Effect.sink line, Effect.fileAppend hook2C2.json_log_path (dumpRecord dictValC2)]) :=
  ⟨by rfl, (logTick_single_writer hook1C2 trainerC2 dictValC2).2 hook2C2
    [Effect.sink "epoch(val) [1][2]\t", Effect.fileAppend "" (dumpRecord dictValC2)]
    (by rfl)⟩

/-! ### C6: initialization in `before_run` -/

/-- C6: `before_run` resolves the output directory to the configured value
when given and to the run's working directory otherwise, records the starting
iteration, fixes the JSON log path `<out_dir>/<timestamp>.log.json`, creates
the directory exactly when it is absent and the caller is the single writer,
and — after the unconditional announcement line — writes the run metadata as
the first (and only) JSON record exactly when the run supplies non-null
metadata and the caller is the single writer. -/
theorem before_run_spec (master : Bool) (dirExists : String → Bool)
    (self : TextLoggerHook) (tr : Trainer) :
    (before_run master dirExists self tr).1.out_dir =
      some (self.out_dir.getD tr.work_dir) ∧
    (before_run master dirExists self tr).1.start_iter = tr.iter ∧
    (before_run master dirExists self tr).1.json_log_path =
      self.out_dir.getD tr.work_dir ++ "/" ++ tr.timestamp ++ ".log.json" ∧
    (Effect.mkdir (self.out_dir.getD tr.work_dir) ∈ (before_run master dirExists self tr).2 ↔
      (dirExists (self.out_dir.getD tr.work_dir) = false ∧ master = true)) ∧
    (before_run master dirExists self tr).2 =
      (if !dirExists (self.out_dir.getD tr.work_dir) && master
        then [Effect.mkdir (self.out_dir.getD tr.work_dir)] else []) ++
      [Effect.sink ("Text logs will be saved to " ++ self.out_dir.getD tr.work_dir)] ++
      (match tr.meta with
        | some m =>
          if master then
            [Effect.fileAppend
              (self.out_dir.getD tr.work_dir ++ "/" ++ tr.timestamp ++ ".log.json")
              (dumpRecord m)]
          else []
        | none => []) := by
  refine ⟨rfl, rfl, rfl, ?_, ?_⟩
  · cases master <;> cases hde : dirExists (self.out_dir.getD tr.work_dir) <;>
      rcases htm : tr.meta with _ | m <;> simp [before_run, dumpLogEffects, hde, htm]
  · rcases htm : tr.meta with _ | m <;> simp [before_run, dumpLogEffects, htm]

/-! ### C7: the learning-rate segments -/

/-- A successful `lrSegs` run produces one segment per group, in order, each
of the shape `lr_<group>: <value:.3e>`. -/
theorem lrSegs_ok_forall (gs : List (String × JValue)) (segs : List String)
    (h : lrSegs gs = .ok segs) :
    List.Forall₂ (fun g sg => ∃ q, toFloatQ g.2 = .ok q ∧
      sg = LR_KEY ++ "_" ++ g.1 ++ ": " ++ fmt3e q) gs segs := by
  induction gs generalizing segs with
  | nil =>
    simp only [lrSegs, Except.ok.injEq] at h
    subst h
    exact .nil
  | cons g rest ih =>
    simp only [lrSegs] at h
    split at h
    · exact absurd h (by simp)
    · rename_i q hq
      split at h
      · exact absurd h (by simp)
      · rename_i tl htl
        simp only [Except.ok.injEq] at h
        subst h
        exact .cons ⟨q, hq, rfl⟩ (ih tl htl)

/-- C7: on every successful training-mode rendering, a multi-group
learning-rate mapping contributes exactly one `lr_<group>: <value>` segment
per group, in the mapping's iteration order, joined by single spaces; a
single numeric learning rate contributes exactly the one segment
`lr: <value>` with the value in 3-fractional-digit scientific notation. -/
theorem logInfo_lr_rendering (self : TextLoggerHook) (tr : Trainer) (d : LogDict)
    (s' : TextLoggerHook) (line : String)
    (h : logInfoCore self tr d = .ok (s', line))
    (mv : JValue) (hm : List.lookup MODE_KEY d = some mv) (hmv : isTrainMode mv = true) :
    (∀ gs, List.lookup LR_KEY d = some (.dict gs) →
      ∃ segs head rest,
        lrSegs gs = .ok segs ∧
        line = head ++ String.intercalate " " segs ++ ", " ++ rest ∧
        List.Forall₂ (fun g sg => ∃ q, toFloatQ g.2 = .ok q ∧
          sg = LR_KEY ++ "_" ++ g.1 ++ ": " ++ fmt3e q) gs segs) ∧
    (∀ q, List.lookup LR_KEY d = some (.float q) →
      ∃ head rest, line = head ++ (LR_KEY ++ ": " ++ fmt3e q) ++ ", " ++ rest) := by
  rcases logInfoCore_ok_inv self tr d s' line h with
    ⟨mv', lrv, lr_str, head, itv, t, dlv, dl, hm', hmv', hlr, hlrs, _, _, _, _, _, hs, hl⟩ |
    ⟨mv', lrv, lr_str, head, hm', hmv', hlr, hlrs, _, _, hs, hl⟩ |
    ⟨mv', head, hm', hmv', _, hs, hl⟩
  · constructor
    · intro gs hgs
      have hlrv : lrv = .dict gs := by
        simp only [getKey, hgs] at hlr
        exact (Except.ok.injEq _ _).mp hlr.symm
      subst hlrv
      simp only [lrStrOf] at hlrs
      split at hlrs
      · exact absurd hlrs (by simp)
      · rename_i segs hsegs
        simp only [Except.ok.injEq] at hlrs
        subst hlrs
        have hl' : line = head ++ String.intercalate " " segs ++ ", " ++
            (ETA_KEY ++ ": " ++
              timedeltaStr (intTrunc (etaSec (self.time_sec_tot + t * (self.interval : ℚ))
                self.start_iter tr)) ++ ", " ++
              ITER_TIME_KEY ++ ": " ++ fmtFixed 3 t ++ ", " ++
              DATA_LOAD_TIME_KEY ++ ": " ++ fmtFixed 3 dl ++ ", " ++
              trailingStr (self.logged_keys ++ [LR_KEY, MODE_KEY, ITER_KEY, EPOCH_KEY] ++
                [ITER_TIME_KEY, DATA_LOAD_TIME_KEY]) d) := by
          rw [hl]
          simp only [String.append_assoc]
        exact ⟨segs, head, _, hsegs, hl', lrSegs_ok_forall gs segs hsegs⟩
    · intro q hq
      have hlrv : lrv = .float q := by
        simp only [getKey, hq] at hlr
        exact (Except.ok.injEq _ _).mp hlr.symm
      subst hlrv
      simp only [lrStrOf, toFloatQ, Except.ok.injEq] at hlrs
      subst hlrs
      have hl' : line = head ++ (LR_KEY ++ ": " ++ fmt3e q) ++ ", " ++
          (ETA_KEY ++ ": " ++
            timedeltaStr (intTrunc (etaSec (self.time_sec_tot + t * (self.interval : ℚ))
              self.start_iter tr)) ++ ", " ++
            ITER_TIME_KEY ++ ": " ++ fmtFixed 3 t ++ ", " ++
            DATA_LOAD_TIME_KEY ++ ": " ++ fmtFixed 3 dl ++ ", " ++
            trailingStr (self.logged_keys ++ [LR_KEY, MODE_KEY, ITER_KEY, EPOCH_KEY] ++
              [ITER_TIME_KEY, DATA_LOAD_TIME_KEY]) d) := by
        rw [hl]
        simp only [String.append_assoc]
      exact ⟨head, _, hl'⟩
  · constructor
    · intro gs hgs
      have hlrv : lrv = .dict gs := by
        simp only [getKey, hgs] at hlr
        exact (Except.ok.injEq _ _).mp hlr.symm
      subst hlrv
      simp only [lrStrOf] at hlrs
      split at hlrs
      · exact absurd hlrs (by simp)
      · rename_i segs hsegs
        simp only [Except.ok.injEq] at hlrs
        subst hlrs
        subst hl
        exact ⟨segs, head, _, hsegs, rfl, lrSegs_ok_forall gs segs hsegs⟩
    · intro q hq
      have hlrv : lrv = .float q := by
        simp only [getKey, hq] at hlr
        exact (Except.ok.injEq _ _).mp hlr.symm
      subst hlrv
      simp only [lrStrOf, toFloatQ, Except.ok.injEq] at hlrs
      subst hlrs
      subst hl
      exact ⟨head, _, rfl⟩
  · simp only [getKey, hm] at hm'
    have hmm : mv = mv' := (Except.ok.injEq _ _).mp hm'
    rw [← hmm, hmv] at hmv'
    exact absurd hmv' (by simp)

/-- A training snapshot whose learning rate is a two-group mapping. -/
def dictLrGroupsC7 : LogDict :=
  [(MODE_KEY, .str "train"), (EPOCH_KEY, .int 1), (ITER_KEY, .int 2),
    (LR_KEY, .dict [("backbone", .int 0), ("head0", .int 0)])]

/-- C7, witness: the statement applied to the concrete two-group snapshot. -/
theorem logInfo_lr_rendering_witness :
    (logInfoCore hookC2 trainerC2 dictLrGroupsC7 =
      .ok (hook1C2, "epoch [1][2/50]\tlr_backbone: 0.000e+00 lr_head0: 0.000e+00, ") ∧
      List.lookup MODE_KEY dictLrGroupsC7 = some (JValue.str "train") ∧
      isTrainMode (JValue.str "train") = true) ∧
    ((∀ gs, List.lookup LR_KEY dictLrGroupsC7 = some (.dict gs) →
      ∃ segs head rest,
        lrSegs gs = .ok segs ∧
        "epoch [1][2/50]\tlr_backbone: 0.000e+00 lr_head0: 0.000e+00, " =
          head ++ String.intercalate " " segs ++ ", " ++ rest ∧
        List.Forall₂ (fun g sg => ∃ q, toFloatQ g.2 = .ok q ∧
          sg = LR_KEY ++ "_" ++ g.1 ++ ": " ++ fmt3e q) gs segs) ∧
    (∀ q, List.lookup LR_KEY dictLrGroupsC7 = some (.float q) →
      ∃ head rest, "epoch [1][2/50]\tlr_backbone: 0.000e+00 lr_head0: 0.000e+00, " =
        head ++ (LR_KEY ++ ": " ++ fmt3e q) ++ ", " ++ rest)) :=
  ⟨⟨by with_unfolding_all rfl, by rfl, by rfl⟩,
    logInfo_lr_rendering hookC2 trainerC2 dictLrGroupsC7 hook1C2
      "epoch [1][2/50]\tlr_backbone: 0.000e+00 lr_head0: 0.000e+00, "
      (by with_unfolding_all rfl) (JValue.str "train") (by rfl) (by rfl)⟩

/-! ### C3: the accumulator, ETA formula and timing segments -/

/-- C3: on every successful training-mode rendering of a snapshot with a
per-iteration time `t` (and data-load time `dl`), the accumulator is updated
to `time_sec_tot + t * interval`; the ETA value is that total divided by
`iter - start_iter + 1` times `max_iters - iter - 1`; and the line carries, in
order, the ETA rendered as the standard `H:MM:SS` duration string (with a day
count at 24h and beyond) of the truncated integer ETA, the iteration time to 3
decimal places, and the data-load time to 3 decimal places. -/
theorem logInfo_eta_timing (self : TextLoggerHook) (tr : Trainer) (d : LogDict)
    (mv : JValue) (hm : List.lookup MODE_KEY d = some mv) (hmv : isTrainMode mv = true)
    (itv : JValue) (t : ℚ) (hit : List.lookup ITER_TIME_KEY d = some itv)
    (htv : toFloatQ itv = .ok t)
    (dlv : JValue) (dl : ℚ) (hdl : List.lookup DATA_LOAD_TIME_KEY d = some dlv)
    (hdlv : toFloatQ dlv = .ok dl)
    (s' : TextLoggerHook) (line : String)
    (h : logInfoCore self tr d = .ok (s', line)) :
    s'.time_sec_tot = self.time_sec_tot + t * (self.interval : ℚ) ∧
    etaSec (self.time_sec_tot + t * (self.interval : ℚ)) self.start_iter tr =
      (self.time_sec_tot + t * (self.interval : ℚ)) /
        ((tr.iter - self.start_iter + 1 : ℤ) : ℚ) *
        ((tr.max_iters - tr.iter - 1 : ℤ) : ℚ) ∧
    (∃ head rest, line = head ++
      (ETA_KEY ++ ": " ++
        timedeltaStr (intTrunc (etaSec (self.time_sec_tot + t * (self.interval : ℚ))
          self.start_iter tr)) ++ ", " ++
        ITER_TIME_KEY ++ ": " ++ fmtFixed 3 t ++ ", " ++
        DATA_LOAD_TIME_KEY ++ ": " ++ fmtFixed 3 dl ++ ", ") ++ rest) := by
  rcases logInfoCore_ok_inv self tr d s' line h with
    ⟨mv', lrv, lr_str, head, itv', t', dlv', dl', hm', hmv', _, _, _, hit', htv', hdl', hdlv',
      hs, hl⟩ |
    ⟨mv', lrv, lr_str, head, hm', hmv', _, _, _, hit', hs, hl⟩ |
    ⟨mv', head, hm', hmv', _, hs, hl⟩
  · rw [hit] at hit'
    have hiv : itv' = itv := (Option.some.injEq _ _).mp hit'.symm
    subst hiv
    rw [htv] at htv'
    have ht : t' = t := (Except.ok.injEq _ _).mp htv'.symm
    subst ht
    simp only [getKey, hdl] at hdl'
    have hdv : dlv' = dlv := (Except.ok.injEq _ _).mp hdl'.symm
    subst hdv
    rw [hdlv] at hdlv'
    have hd : dl' = dl := (Except.ok.injEq _ _).mp hdlv'.symm
    subst hd
    subst hs
    refine ⟨rfl, rfl, head ++ lr_str ++ ", ",
      trailingStr (self.logged_keys ++ [LR_KEY, MODE_KEY, ITER_KEY, EPOCH_KEY] ++
        [ITER_TIME_KEY, DATA_LOAD_TIME_KEY]) d, ?_⟩
    rw [hl]
    simp only [String.append_assoc]
  · rw [hit] at hit'
    exact absurd hit' (by simp)
  · simp only [getKey, hm] at hm'
    have hmm : mv = mv' := (Except.ok.injEq _ _).mp hm'
    rw [← hmm, hmv] at hmv'
    exact absurd hmv' (by simp)

/-- A training snapshot with both timing keys (integer-valued, 2 s per
iteration and 1 s of data loading). -/
def dictTimingC3 : LogDict :=
  [(MODE_KEY, .str "train"), (EPOCH_KEY, .int 1), (ITER_KEY, .int 2), (LR_KEY, .int 0),
    (ITER_TIME_KEY, .int 2), (DATA_LOAD_TIME_KEY, .int 1)]

/-- The hook state after the timing tick: `time_sec_tot = 0 + 2 * 10 = 20`. -/
def hook3C3 : TextLoggerHook :=
  { hookC2 with
    time_sec_tot := 20
    logged_keys := ["lr", "mode", "iter", "epoch", "iter_time", "data_load_time"] }

/-- The line rendered on the timing tick: `eta = 20/6 * 94 = 313.33 s`,
truncated to `0:05:13`. -/
def lineC3 : String :=
  "epoch [1][2/50]\tlr: 0.000e+00, eta: 0:05:13, iter_time: 2.000, data_load_time: 1.000, "

/-- C3, witness: the statement applied to the concrete timing tick. -/
theorem logInfo_eta_timing_witness :
    (logInfoCore hookC2 trainerC2 dictTimingC3 = .ok (hook3C3, lineC3) ∧
      List.lookup MODE_KEY dictTimingC3 = some (JValue.str "train") ∧
      isTrainMode (JValue.str "train") = true ∧
      List.lookup ITER_TIME_KEY dictTimingC3 = some (JValue.int 2) ∧
      toFloatQ (JValue.int 2) = .ok 2 ∧
      List.lookup DATA_LOAD_TIME_KEY dictTimingC3 = some (JValue.int 1) ∧
      toFloatQ (JValue.int 1) = .ok 1) ∧
    (hook3C3.time_sec_tot = hookC2.time_sec_tot + 2 * (hookC2.interval : ℚ) ∧
      etaSec (hookC2.time_sec_tot + 2 * (hookC2.interval : ℚ)) hookC2.start_iter trainerC2 =
        (hookC2.time_sec_tot + 2 * (hookC2.interval : ℚ)) /
          ((trainerC2.iter - hookC2.start_iter + 1 : ℤ) : ℚ) *
          ((trainerC2.max_iters - trainerC2.iter - 1 : ℤ) : ℚ) ∧
      (∃ head rest, lineC3 = head ++
        (ETA_KEY ++ ": " ++
          timedeltaStr (intTrunc (etaSec (hookC2.time_sec_tot + 2 * (hookC2.interval : ℚ))
            hookC2.start_iter trainerC2)) ++ ", " ++
          ITER_TIME_KEY ++ ": " ++ fmtFixed 3 2 ++ ", " ++
          DATA_LOAD_TIME_KEY ++ ": " ++ fmtFixed 3 1 ++ ", ") ++ rest)) :=
  ⟨⟨by with_unfolding_all rfl, by rfl, by rfl, by rfl, by with_unfolding_all rfl,
      by rfl, by with_unfolding_all rfl⟩,
    logInfo_eta_timing hookC2 trainerC2 dictTimingC3 (JValue.str "train") (by rfl) (by rfl)
      (JValue.int 2) 2 (by rfl) (by with_unfolding_all rfl)
      (JValue.int 1) 1 (by rfl) (by with_unfolding_all rfl)
      hook3C3 lineC3 (by with_unfolding_all rfl)⟩

/-! ### C8: keys consumed into the head/LR/timing segments -/

/-- C8: on every successful rendering, the keys consumed into the display
prefix, learning-rate and timing segments (`mode`, `epoch`, `iter`, plus `lr`
in training mode, plus the two timing keys when the iteration time is
present) are marked in `_logged_keys` during the call, the generic trailing
segment of the very same line is built from the entries whose names are NOT
marked, and hence none of the consumed keys reappears in it. -/
theorem logInfo_consumed_keys (self : TextLoggerHook) (tr : Trainer) (d : LogDict)
    (s' : TextLoggerHook) (line : String)
    (h : logInfoCore self tr d = .ok (s', line)) :
    (∃ head, line = head ++ trailingStr s'.logged_keys d) ∧
    (∀ p ∈ trailingPairs s'.logged_keys d, p.1 ∉ s'.logged_keys) ∧
    MODE_KEY ∈ s'.logged_keys ∧ ITER_KEY ∈ s'.logged_keys ∧ EPOCH_KEY ∈ s'.logged_keys ∧
    (∀ mv, List.lookup MODE_KEY d = some mv → isTrainMode mv = true →
      LR_KEY ∈ s'.logged_keys ∧
      (∀ itv, List.lookup ITER_TIME_KEY d = some itv →
        ITER_TIME_KEY ∈ s'.logged_keys ∧ DATA_LOAD_TIME_KEY ∈ s'.logged_keys)) := by
  rcases logInfoCore_ok_inv self tr d s' line h with
    ⟨mv', lrv, lr_str, head, itv', t', dlv', dl', hm', hmv', _, _, _, hit', _, _, _, hs, hl⟩ |
    ⟨mv', lrv, lr_str, head, hm', hmv', _, _, _, hit', hs, hl⟩ |
    ⟨mv', head, hm', hmv', _, hs, hl⟩
  · subst hs
    subst hl
    refine ⟨⟨_, rfl⟩, trailingPairs_fst_not_mem _ d, by simp, by simp, by simp, ?_⟩
    intro mv hm hmt
    exact ⟨by simp, fun itv hit => ⟨by simp, by simp⟩⟩
  · subst hs
    subst hl
    refine ⟨⟨_, rfl⟩, trailingPairs_fst_not_mem _ d, by simp, by simp, by simp, ?_⟩
    intro mv hm hmt
    refine ⟨by simp, fun itv hit => ?_⟩
    rw [hit] at hit'
    exact absurd hit' (by simp)
  · subst hs
    subst hl
    refine ⟨⟨_, rfl⟩, trailingPairs_fst_not_mem _ d, by simp, by simp, by simp, ?_⟩
    intro mv hm hmt
    simp only [getKey, hm] at hm'
    have hmm : mv = mv' := (Except.ok.injEq _ _).mp hm'
    rw [← hmm, hmt] at hmv'
    exact absurd hmv' (by simp)

/-- C8, witness: the statement applied to the concrete timing tick. -/
theorem logInfo_consumed_keys_witness :
    logInfoCore hookC2 trainerC2 dictTimingC3 = .ok (hook3C3, lineC3) ∧
    ((∃ head, lineC3 = head ++ trailingStr hook3C3.logged_keys dictTimingC3) ∧
      (∀ p ∈ trailingPairs hook3C3.logged_keys dictTimingC3,
        p.1 ∉ hook3C3.logged_keys) ∧
      MODE_KEY ∈ hook3C3.logged_keys ∧ ITER_KEY ∈ hook3C3.logged_keys ∧
      EPOCH_KEY ∈ hook3C3.logged_keys ∧
      (∀ mv, List.lookup MODE_KEY dictTimingC3 = some mv → isTrainMode mv = true →
        LR_KEY ∈ hook3C3.logged_keys ∧
        (∀ itv, List.lookup ITER_TIME_KEY dictTimingC3 = some itv →
          ITER_TIME_KEY ∈ hook3C3.logged_keys ∧
          DATA_LOAD_TIME_KEY ∈ hook3C3.logged_keys))) :=
  ⟨by with_unfolding_all rfl,
    logInfo_consumed_keys hookC2 trainerC2 dictTimingC3 hook3C3 lineC3
      (by with_unfolding_all rfl)⟩

end TextLoggerModel
